import Mathlib

/-!
Shallow embedding of `src/link_checker.py` (a broken-link checker for the
Creative Commons legalcode corpus) together with the CPython
`urllib.parse` routines it calls (`urlsplit`, `urljoin`, and the
serializers they rely on).  Strings are modeled as Lean `String`s, with
the character-level work done on `List Char`; the `requests` network layer
is modeled as an oracle `Net : String → Option Nat` (`some n` = a response
with HTTP status `n`, `none` = a timeout).  The `ValueError` branches of
`urlsplit` for malformed IPv6 netlocs and non-ASCII netlocs are not
modeled: the embedding is total on strings, which is faithful on the
ASCII URLs this program handles.
-/

namespace LinkChecker

/-! ### Check results and Python truthiness -/

/-- The values `scrape`/`get_status` can produce: a numeric HTTP status
code, the string `"Timeout Error"`, the string `"ignore"`, or the string
`"Invalid protocol detected"`. -/
inductive Status where
  | code (n : Nat)
  | timeoutError
  | ignore
  | invalidProtocol
deriving DecidableEq, Repr

/-- Python truthiness of a `Status` value, as tested by `if status:` in
`check_existing`.  The three string results are nonempty, hence truthy;
an integer status code is truthy iff nonzero. -/
def truthy : Status → Bool
  | .code n => n != 0
  | _ => true

/-- The network oracle standing for `requests.get` with the module's
header and 10-second timeout: `some n` is a response with status code
`n`, `none` is a `requests.exceptions.Timeout`. -/
abbrev Net : Type := String → Option Nat

/-! ### Python string primitives over `List Char` -/

/-- Python `s.split(c, 1)` viewed on characters: split at the first
occurrence of `c`, or `none` when `c` does not occur. -/
def splitAtFirst (c : Char) : List Char → Option (List Char × List Char)
  | [] => none
  | x :: xs =>
    if x = c then some ([], xs)
    else
      match splitAtFirst c xs with
      | some (a, b) => some (x :: a, b)
      | none => none

/-- Split at the last occurrence of `c` (Python `s.rfind(c)` followed by
slicing), or `none` when `c` does not occur. -/
def splitAtLast (c : Char) (l : List Char) : Option (List Char × List Char) :=
  match splitAtFirst c l.reverse with
  | some (a, b) => some (b.reverse, a.reverse)
  | none => none

/-- Python `str.split(sep)` for a one-character separator: every
occurrence splits, adjacent separators give empty fields, and the empty
string yields `[[]]`. -/
def splitOnChar (c : Char) : List Char → List (List Char)
  | [] => [[]]
  | x :: xs =>
    match splitOnChar c xs with
    | [] => [[]]
    | h :: t => if x = c then [] :: h :: t else (x :: h) :: t

/-- Python `sep.join(parts)` for a one-character separator. -/
def joinWithChar (c : Char) : List (List Char) → List Char
  | [] => []
  | [x] => x
  | x :: y :: t => x ++ c :: joinWithChar c (y :: t)

/-- Python `str.startswith` on character lists. -/
def startsWithChars : List Char → List Char → Bool
  | _, [] => true
  | [], _ :: _ => false
  | a :: as, b :: bs => a = b && startsWithChars as bs

/-- Python `str.startswith` on strings. -/
def pyStartswith (s pre : String) : Bool :=
  startsWithChars s.data pre.data

/-! ### CPython `urllib.parse`: scheme tables and splitting -/

/-- CPython 3.11 `uses_relative`: schemes for which relative joining is
defined. -/
def uses_relative : List String :=
  ["", "ftp", "http", "gopher", "nntp", "imap", "wais", "file", "https",
   "shttp", "mms", "prospero", "rtsp", "rtsps", "rtspu", "sftp", "svn",
   "svn+ssh", "ws", "wss"]

/-- CPython 3.11 `uses_netloc`: schemes whose URLs carry a network
location. -/
def uses_netloc : List String :=
  ["", "ftp", "http", "gopher", "nntp", "telnet", "imap", "wais", "file",
   "mms", "https", "shttp", "snews", "prospero", "rtsp", "rtsps", "rtspu",
   "rsync", "svn", "svn+ssh", "sftp", "nfs", "git", "git+ssh", "ws", "wss"]

/-- CPython 3.11 `uses_params`: schemes for which `urlparse` separates
the `;params` portion. -/
def uses_params : List String :=
  ["", "ftp", "hdl", "prospero", "http", "imap", "https", "shttp", "rtsp",
   "rtsps", "rtspu", "sip", "sips", "mms", "sftp", "tel"]

/-- Membership in `_WHATWG_C0_CONTROL_OR_SPACE` (code points `0x00`
through `0x20`), which `urlsplit` strips from the front of the URL. -/
def isC0OrSpace (c : Char) : Bool := c.val ≤ 32

/-- Removal of `_UNSAFE_URL_BYTES_TO_REMOVE` (tab, CR, LF), applied by
`urlsplit` to the whole URL and scheme. -/
def removeUnsafe (l : List Char) : List Char :=
  l.filter (fun c => !(c = '\t' || c = '\r' || c = '\n'))

/-- Python `str.strip` restricted to the C0-control-or-space class, as
applied by `urlsplit` to its `scheme` argument. -/
def stripC0 (l : List Char) : List Char :=
  ((l.dropWhile isC0OrSpace).reverse.dropWhile isC0OrSpace).reverse

/-- Membership in CPython `scheme_chars`: letters, digits, `+`, `-`, `.`
(the characters allowed after the first character of a scheme). -/
def isSchemeChar (c : Char) : Bool :=
  c.isAlpha || c.isDigit || c = '+' || c = '-' || c = '.'

/-- Scanner behind the scheme detection of `urlsplit`: consume valid
scheme characters until a `:`; `none` when an invalid character appears
before the first `:` or no `:` is present. -/
def takeScheme (acc : List Char) : List Char → Option (List Char × List Char)
  | [] => none
  | c :: cs =>
    if c = ':' then some (acc.reverse, cs)
    else if isSchemeChar c then takeScheme (c :: acc) cs
    else none

/-- Scheme detection of `urlsplit`: the URL carries a scheme iff its
first character is an ASCII letter and every character up to the first
`:` is a scheme character; the scheme is lower-cased. -/
def splitScheme (l : List Char) : Option (List Char × List Char) :=
  match l with
  | [] => none
  | c :: cs =>
    if c.isAlpha then
      match takeScheme [c] cs with
      | some (s, rest) => some (s.map Char.toLower, rest)
      | none => none
    else none

/-- Result record of `urlsplit` (CPython `SplitResult`). -/
structure SplitResult where
  scheme : String
  netloc : String
  path : String
  query : String
  fragment : String
deriving DecidableEq, Repr

/-- CPython `urllib.parse.urlsplit` with `allow_fragments=True`: strip
leading C0 controls and spaces, drop tab/CR/LF, detect the scheme, take
the netloc after `//` up to `/`, `?` or `#`, then split fragment and
query.  The `ValueError` branches for malformed bracketed hosts are not
modeled. -/
def urlsplit (url defaultScheme : String) : SplitResult :=
  let u0 := removeUnsafe (url.data.dropWhile isC0OrSpace)
  let ds := removeUnsafe (stripC0 defaultScheme.data)
  let schemeRest :=
    match splitScheme u0 with
    | some (s, rest) => (s, rest)
    | none => (ds, u0)
  let scheme := schemeRest.1
  let u1 := schemeRest.2
  let netlocRest :=
    match u1 with
    | '/' :: '/' :: rest =>
      (rest.takeWhile (fun c => !(c = '/' || c = '?' || c = '#')),
       rest.dropWhile (fun c => !(c = '/' || c = '?' || c = '#')))
    | _ => ([], u1)
  let netloc := netlocRest.1
  let u2 := netlocRest.2
  let pathFragment :=
    match splitAtFirst '#' u2 with
    | some (a, b) => (a, b)
    | none => (u2, [])
  let u3 := pathFragment.1
  let fragment := pathFragment.2
  let pathQuery :=
    match splitAtFirst '?' u3 with
    | some (a, b) => (a, b)
    | none => (u3, [])
  ⟨scheme.asString, netloc.asString, pathQuery.1.asString,
   pathQuery.2.asString, fragment.asString⟩

/-- CPython `urllib.parse.urlunsplit` (3.11); `SplitResult.geturl()`
returns this serialization.  The first condition is
`netloc or (scheme and scheme in uses_netloc and url[:2] != '//')`,
with `uses_netloc` inlined below as the definition order requires. -/
def urlunsplit (r : SplitResult) : String :=
  let url0 := r.path.data
  let url1 :=
    if r.netloc ≠ "" ∨
        (r.scheme ≠ "" ∧ uses_netloc.contains r.scheme ∧
          ¬ startsWithChars url0 ['/', '/']) then
      let url := if url0 ≠ [] ∧ ¬ startsWithChars url0 ['/'] then '/' :: url0 else url0
      '/' :: '/' :: (r.netloc.data ++ url)
    else url0
  let url2 := if r.scheme ≠ "" then r.scheme.data ++ ':' :: url1 else url1
  let url3 := if r.query ≠ "" then url2 ++ '?' :: r.query.data else url2
  let url4 := if r.fragment ≠ "" then url3 ++ '#' :: r.fragment.data else url3
  url4.asString

/-! ### CPython `urllib.parse`: parsing with params and joining -/

/-- Result record of `urlparse` (CPython `ParseResult`): `urlsplit` plus
the `;params` portion of the last path segment. -/
structure ParseResult where
  scheme : String
  netloc : String
  path : String
  params : String
  query : String
  fragment : String
deriving DecidableEq, Repr

/-- CPython `_splitparams`: split the `;params` portion off the last path
segment (only invoked when `;` occurs in the path). -/
def splitparams (l : List Char) : List Char × List Char :=
  if l.contains '/' then
    match splitAtLast '/' l with
    | some (pre, post) =>
      match splitAtFirst ';' post with
      | some (a, b) => (pre ++ '/' :: a, b)
      | none => (l, [])
    | none => (l, [])
  else
    match splitAtFirst ';' l with
    | some (a, b) => (a, b)
    | none => (l, [])

/-- CPython `urllib.parse.urlparse`. -/
def urlparse (url defaultScheme : String) : ParseResult :=
  let s := urlsplit url defaultScheme
  if uses_params.contains s.scheme ∧ s.path.data.contains ';' then
    let pp := splitparams s.path.data
    ⟨s.scheme, s.netloc, pp.1.asString, pp.2.asString, s.query, s.fragment⟩
  else
    ⟨s.scheme, s.netloc, s.path, "", s.query, s.fragment⟩

/-- CPython `urllib.parse.urlunparse`. -/
def urlunparse (r : ParseResult) : String :=
  let url := if r.params ≠ "" then r.path ++ ";" ++ r.params else r.path
  urlunsplit ⟨r.scheme, r.netloc, url, r.query, r.fragment⟩

/-- The slice assignment `segments[1:-1] = filter(None, segments[1:-1])`
of `urljoin`: drop empty interior segments, keeping the first and last
elements. -/
def keepLast : List (List Char) → List (List Char)
  | [] => []
  | [x] => [x]
  | x :: y :: t =>
    if x = [] then keepLast (y :: t) else x :: keepLast (y :: t)

/-- Apply `keepLast` to everything after the head (the head is the
`segments[0]` the slice assignment leaves untouched). -/
def filterInterior : List (List Char) → List (List Char)
  | [] => []
  | [a] => [a]
  | a :: rest => a :: keepLast rest

/-- The segment-resolution loop of `urljoin`: `..` pops (ignoring pops of
an empty stack), `.` is dropped, anything else is pushed. -/
def resolveSegs (segs : List (List Char)) : List (List Char) :=
  segs.foldl
    (fun acc seg =>
      if seg = ['.', '.'] then acc.dropLast
      else if seg = ['.'] then acc
      else acc ++ [seg]) []

/-- CPython `urllib.parse.urljoin`. -/
def urljoin (base url : String) : String :=
  if base = "" then url
  else if url = "" then base
  else
    let b := urlparse base ""
    let u := urlparse url b.scheme
    if u.scheme ≠ b.scheme ∨ ¬ uses_relative.contains u.scheme then url
    else if uses_netloc.contains u.scheme ∧ u.netloc ≠ "" then urlunparse u
    else
      let netloc := if uses_netloc.contains u.scheme then b.netloc else u.netloc
      if u.path = "" ∧ u.params = "" then
        let query := if u.query = "" then b.query else u.query
        urlunparse ⟨u.scheme, netloc, b.path, b.params, query, u.fragment⟩
      else
        let base_parts0 := splitOnChar '/' b.path.data
        let base_parts :=
          if base_parts0.getLast? ≠ some [] then base_parts0.dropLast
          else base_parts0
        let segments :=
          if startsWithChars u.path.data ['/'] then splitOnChar '/' u.path.data
          else filterInterior (base_parts ++ splitOnChar '/' u.path.data)
        let resolved0 := resolveSegs segments
        let resolved :=
          if segments.getLast? = some ['.'] ∨ segments.getLast? = some ['.', '.'] then
            resolved0 ++ [[]]
          else resolved0
        let p0 := joinWithChar '/' resolved
        let p := if p0 = [] then ['/'] else p0
        urlunparse ⟨u.scheme, netloc, p.asString, u.params, u.query, u.fragment⟩

/-! ### The functions of `src/link_checker.py` -/

/-- Lines 53-60 of `src/link_checker.py`.  The Python function reads the
module-level global `base_url` (set by the main loop), not a parameter of
`check_existing`; the global is passed here explicitly as `base_url`. -/
def create_absolute_link (base_url : String) (link_analysis : SplitResult)
    (href : String) : String :=
  if link_analysis.scheme = "" ∧ link_analysis.netloc = "" ∧
      link_analysis.path ≠ "" then
    urljoin base_url href
  else href

/-- Lines 84-90: `requests.get` with the fixed header and 10-second
timeout, returning `"Timeout Error"` on timeout and the numeric status
code otherwise. -/
def get_status (net : Net) (href : String) : Status :=
  match net href with
  | none => .timeoutError
  | some n => .code n

/-- Lines 93-112: classify a URL by its scheme; an empty scheme is
replaced by `https` before the request. -/
def scrape (net : Net) (href : String) : Status :=
  let analyse := urlsplit href ""
  if analyse.scheme = "" ∨ analyse.scheme = "https" ∨ analyse.scheme = "http" then
    let analyse2 :=
      if analyse.scheme = "" then { analyse with scheme := "https" } else analyse
    get_status net (urlunsplit analyse2)
  else if analyse.scheme = "mailto" then .ignore
  else .invalidProtocol

/-- The module-level mutable state read and written by `check_existing`
(the global `base_url` set by the main loop and the `scraped_links`
dictionary), instrumented with a call counter for `scrape` (the
call-count spy of the spec's testable property). -/
structure CState where
  base_url : String
  scraped_links : List (String × Status)
  scrapeCalls : Nat
deriving DecidableEq, Repr

/-- Python `dict.get` on the insertion-ordered association list modeling
`scraped_links`. -/
def dictGet : List (String × Status) → String → Option Status
  | [], _ => none
  | (k0, v0) :: rest, k => if k0 = k then some v0 else dictGet rest k

/-- Python `dict.__setitem__`: replace the value of an existing key in
place, or append a new binding. -/
def dictSet : List (String × Status) → String → Status → List (String × Status)
  | [], k, v => [(k, v)]
  | (k0, v0) :: rest, k, v =>
    if k0 = k then (k0, v) :: rest else (k0, v0) :: dictSet rest k v

/-- Lines 63-81 of `src/link_checker.py`.  `link` stands for the anchor
tag's `href` attribute (the Python code reads `link["href"]`); the
`base_url` parameter is declared but never read, since
`create_absolute_link` resolves against the module global carried in
`st`. -/
def check_existing (net : Net) (st : CState) (link base_url : String) :
    Status × CState :=
  let href := link
  let analyse := urlsplit href ""
  let href2 := create_absolute_link st.base_url analyse href
  match dictGet st.scraped_links href2 with
  | some status =>
    if truthy status then (status, st)
    else
      let status2 := scrape net href2
      (status2,
       { st with scraped_links := dictSet st.scraped_links href2 status2,
                 scrapeCalls := st.scrapeCalls + 1 })
  | none =>
    let status2 := scrape net href2
    (status2,
     { st with scraped_links := dictSet st.scraped_links href2 status2,
               scrapeCalls := st.scrapeCalls + 1 })

/-- Lines 115-144: derive the canonical legalcode URL from a license
filename.  Python's `parts[1]` (and `parts[2]`) raise `IndexError` when
out of range; those raises are modeled as `none`. -/
def create_base_link (filename : String) : Option String :=
  let base := "https://creativecommons.org"
  let parts := (splitOnChar '_' filename.data).map List.asString
  match parts.get? 0, parts.get? 1 with
  | some p0, some p1 =>
    let extra0 :=
      if p0 = "samplingplus" then "/licenses/sampling+"
      else if pyStartswith p0 "zero" then "/publicdomain/" ++ p0
      else "/licenses/" ++ p0
    let extra1 := extra0 ++ "/" ++ p1
    if p0 = "samplingplus" ∧ parts.length = 3 then
      match parts.get? 2 with
      | some p2 => some (base ++ extra1 ++ "/" ++ p2 ++ "/legalcode")
      | none => none
    else
      let step1 : Option String :=
        if parts.length = 4 then (parts.get? 2).map (fun p2 => extra1 ++ "/" ++ p2)
        else some extra1
      match step1 with
      | none => none
      | some extra2 =>
        let extra3 := extra2 ++ "/legalcode"
        if 3 ≤ parts.length then
          match parts.getLast? with
          | some plast => some (base ++ extra3 ++ "." ++ plast)
          | none => none
        else some (base ++ extra3)
  | _, _ => none

/-- Lines 183-202: the per-link loop of the orchestrator over one stream
of anchors.  `none` in the input list is an anchor without an `href`
attribute (skipped via the `KeyError` handler); an href starting with
`#` is skipped as internal; otherwise the link is checked and `err_code`
is set to 1 unless the result is `200` or `"ignore"`.  Python's `href[0]`
on an empty href raises an uncaught `IndexError`, modeled as the whole
run returning `none`.  The returned list is the trace of check results
of the links that were actually checked, in order. -/
def run_links (net : Net) :
    List (Option String) → CState → Nat → Option (CState × Nat × List Status)
  | [], st, err => some (st, err, [])
  | none :: rest, st, err => run_links net rest st err
  | some href :: rest, st, err =>
    match href.data with
    | [] => none
    | c :: _ =>
      if c = '#' then run_links net rest st err
      else
        let r := check_existing net st href st.base_url
        match run_links net rest r.2
            (if r.1 = .code 200 ∨ r.1 = .ignore then err else 1) with
        | some (st2, e, tr) => some (st2, e, r.1 :: tr)
        | none => none

/-! ### Helper lemmas -/

/-- Looking a key up after a `dict` assignment: the assigned key maps to
the new value, every other key is unchanged. -/
theorem dictGet_dictSet (m : List (String × Status)) (k k2 : String) (v : Status) :
    dictGet (dictSet m k v) k2 = if k = k2 then some v else dictGet m k2 := by
  induction m with
  | nil =>
    by_cases h : k = k2 <;> simp [dictSet, dictGet, h]
  | cons hd tl ih =>
    obtain ⟨k0, v0⟩ := hd
    by_cases h1 : k0 = k <;> by_cases h2 : k0 = k2 <;> by_cases h3 : k = k2 <;>
      simp_all [dictSet, dictGet]

/-- Every value `scrape` can produce is Python-truthy, provided the
network oracle never reports the (impossible for `http.client`, which
rejects status lines outside 100-999) status code 0. -/
theorem scrape_truthy (net : Net) (hnet : ∀ u n, net u = some n → n ≠ 0)
    (href : String) : truthy (scrape net href) = true := by
  have hg : ∀ u, truthy (get_status net u) = true := by
    intro u
    unfold get_status
    cases h : net u with
    | none => rfl
    | some n => simpa [truthy] using hnet u n h
  unfold scrape
  by_cases h1 : (urlsplit href "").scheme = "" ∨ (urlsplit href "").scheme = "https" ∨
      (urlsplit href "").scheme = "http"
  · simp only [h1, if_true]
    apply hg
  · simp only [h1, if_false]
    by_cases h2 : (urlsplit href "").scheme = "mailto" <;> simp [h2, truthy]

/-- A string without the separator splits into a single field. -/
theorem splitOnChar_not_mem (c : Char) (l : List Char) (h : c ∉ l) :
    splitOnChar c l = [l] := by
  induction l with
  | nil => rfl
  | cons x xs ih =>
    have hx : x ≠ c := fun he => h (he ▸ List.mem_cons_self x xs)
    have hxs : c ∉ xs := fun hm => h (List.mem_cons_of_mem x hm)
    simp [splitOnChar, ih hxs, hx]

/-- Splitting never produces the empty list of fields. -/
theorem splitOnChar_ne_nil (c : Char) (l : List Char) : splitOnChar c l ≠ [] := by
  cases l with
  | nil => simp [splitOnChar]
  | cons x xs =>
    simp only [splitOnChar]
    cases h : splitOnChar c xs with
    | nil => simp
    | cons h2 t => by_cases hx : x = c <;> simp [hx]

/-- A string containing the separator splits into at least two
fields. -/
theorem splitOnChar_mem_length (c : Char) (l : List Char) (h : c ∈ l) :
    2 ≤ (splitOnChar c l).length := by
  induction l with
  | nil => cases h
  | cons x xs ih =>
    simp only [splitOnChar]
    cases hs : splitOnChar c xs with
    | nil => exact absurd hs (splitOnChar_ne_nil c xs)
    | cons h2 t =>
      by_cases hx : x = c
      · simp [hx]
      · have hmem : c ∈ xs := by
          cases List.mem_cons.mp h with
          | inl he => exact absurd he.symm hx
          | inr hm => exact hm
        have := ih hmem
        rw [hs] at this
        simp only [List.length_cons] at this ⊢
        simp [hx]
        omega

/-! ### Concrete inputs for witnesses and counterexamples -/

/-- A network oracle answering status 200 to every request. -/
def netOk : Net := fun _ => some 200

/-- A network oracle timing out on every request. -/
def netTimeout : Net := fun _ => none

/-- The module state as the main loop has it while checking the
`by_4.0` document: `base_url` set by `create_base_link`, empty cache. -/
def st0 : CState :=
  ⟨"https://creativecommons.org/licenses/by/4.0/legalcode", [], 0⟩

/-! ### Claim theorems -/

/-- C3: `create_base_link` satisfies the four golden cases of the
Base-URL Deriver: `by_4.0`, `by-sa_4.0_fr`, the three-part `samplingplus`
filename, and `zero_1.0`. -/
theorem create_base_link_golden_cases :
    create_base_link "by_4.0" =
      some "https://creativecommons.org/licenses/by/4.0/legalcode" ∧
    create_base_link "by-sa_4.0_fr" =
      some "https://creativecommons.org/licenses/by-sa/4.0/legalcode.fr" ∧
    create_base_link "samplingplus_1.0_us" =
      some "https://creativecommons.org/licenses/sampling+/1.0/us/legalcode" ∧
    create_base_link "zero_1.0" =
      some "https://creativecommons.org/publicdomain/zero/1.0/legalcode" := by
  refine ⟨?_, ?_, ?_, ?_⟩ <;> decide

/-- C9: an anchor whose `href` attribute is present but empty crashes the
per-link loop: `href[0]` raises `IndexError` before the link can be
skipped or checked, so the whole run aborts (`none`), whatever the
network, the remaining links, the state and the error flag. -/
theorem empty_href_crashes_loop (net : Net) (rest : List (Option String))
    (st : CState) (err : Nat) :
    run_links net (some "" :: rest) st err = none := rfl

/-- C1 is refuted at the protocol-relative href `//example.com/x`: the
href is schemeless, yet `check_existing` stores its result under the
schemeless key `//example.com/x` and no entry exists under the
scheme-normalized `https://example.com/x`. -/
theorem cache_key_not_scheme_normalized :
    (urlsplit "//example.com/x" "").scheme = "" ∧
    dictGet (check_existing netOk st0 "//example.com/x" st0.base_url).2.scraped_links
      "//example.com/x" = some (.code 200) ∧
    dictGet (check_existing netOk st0 "//example.com/x" st0.base_url).2.scraped_links
      "https://example.com/x" = none := by
  refine ⟨?_, ?_, ?_⟩ <;> decide

/-- C1 (amended): the key under which `check_existing` stores a Check
Result is exactly the output of the URL Resolver
(`create_absolute_link`), with no scheme normalization applied: either
the call leaves the state unchanged (cache hit), or the result is
`scrape` of that resolver output and it is stored under that key. -/
theorem cache_key_is_resolver_output (net : Net) (st : CState) (link b : String) :
    (check_existing net st link b).2 = st ∨
    ((check_existing net st link b).1
        = scrape net (create_absolute_link st.base_url (urlsplit link "") link) ∧
      (check_existing net st link b).2.scraped_links
        = dictSet st.scraped_links
            (create_absolute_link st.base_url (urlsplit link "") link)
            (check_existing net st link b).1) := by
  unfold check_existing
  cases h : dictGet st.scraped_links
      (create_absolute_link st.base_url (urlsplit link "") link) with
  | none => right; simp [h]
  | some s =>
    by_cases ht : truthy s
    · left; simp [h, ht]
    · right; simp [h, ht]

/-- C2: `check_existing` memoizes `scrape` per resolved key.  Under the
environmental facts that the oracle never reports status code 0 (CPython
`http.client` rejects status lines outside 100-999) and that every
cached value is truthy, a first call on an uncached key performs exactly
one `scrape` and stores its result under the key; a repeated call for
the same link returns the stored result and changes nothing (no further
`scrape`, no overwrite); a call on a cached key returns the stored value
with the state untouched; and the truthiness invariant is preserved. -/
theorem check_existing_scrapes_at_most_once (net : Net) (st : CState)
    (link b1 b2 : String)
    (hnet : ∀ u n, net u = some n → n ≠ 0)
    (hst : ∀ k s, dictGet st.scraped_links k = some s → truthy s) :
    check_existing net (check_existing net st link b1).2 link b2
        = check_existing net st link b1 ∧
    (dictGet st.scraped_links
        (create_absolute_link st.base_url (urlsplit link "") link) = none →
      (check_existing net st link b1).2.scrapeCalls = st.scrapeCalls + 1 ∧
      dictGet (check_existing net st link b1).2.scraped_links
          (create_absolute_link st.base_url (urlsplit link "") link)
        = some (check_existing net st link b1).1) ∧
    (∀ s, dictGet st.scraped_links
        (create_absolute_link st.base_url (urlsplit link "") link) = some s →
      check_existing net st link b1 = (s, st)) ∧
    (∀ k s, dictGet (check_existing net st link b1).2.scraped_links k = some s →
      truthy s) := by
  have hts := scrape_truthy net hnet
      (create_absolute_link st.base_url (urlsplit link "") link)
  cases h : dictGet st.scraped_links
      (create_absolute_link st.base_url (urlsplit link "") link) with
  | some s =>
    have ht := hst _ s h
    refine ⟨?_, ?_, ?_, ?_⟩
    · simp [check_existing, h, ht]
    · intro hc; simp [h] at hc
    · intro s2 hs2
      cases hs2
      simp [check_existing, h, ht]
    · intro k v hv
      have hstate : (check_existing net st link b1).2 = st := by
        simp [check_existing, h, ht]
      rw [hstate] at hv
      exact hst k v hv
  | none =>
    refine ⟨?_, ?_, ?_, ?_⟩
    · simp [check_existing, h, dictGet_dictSet, hts]
    · intro _; simp [check_existing, h, dictGet_dictSet]
    · intro s2 hs2; simp at hs2
    · intro k v hv
      simp only [check_existing, h] at hv
      rw [dictGet_dictSet] at hv
      by_cases hk : create_absolute_link st.base_url (urlsplit link "") link = k
      · rw [if_pos hk] at hv
        cases hv
        exact hts
      · rw [if_neg hk] at hv
        exact hst k v hv

/-- Witness for C2 at the concrete link `mailto:a` in the initial state:
the second call returns exactly what the first call produced, with the
state of the first call unchanged. -/
theorem check_existing_scrapes_at_most_once_witness :
    check_existing netOk (check_existing netOk st0 "mailto:a" "b1").2 "mailto:a" "b2"
      = check_existing netOk st0 "mailto:a" "b1" := by
  exact (check_existing_scrapes_at_most_once netOk st0 "mailto:a" "b1" "b2"
    (fun u n hn => by simp [netOk] at hn; omega)
    (fun k s hs => by simp [st0, dictGet] at hs)).1

/-- C8: the result of `check_existing` does not depend on its `base_url`
argument: the body never reads the parameter (resolution uses the module
global carried in the state), so any two arguments give the identical
result and cache update. -/
theorem check_existing_ignores_base_url_argument (net : Net) (st : CState)
    (link b1 b2 : String) :
    check_existing net st link b1 = check_existing net st link b2 := rfl

/-- C10: `create_base_link` unconditionally indexes `parts[1]`, so a
filename without an underscore (one split field) fails with an
out-of-bounds index instead of returning a URL, while any filename
containing an underscore (at least two fields) does produce a URL. -/
theorem create_base_link_needs_underscore (filename : String) :
    ('_' ∉ filename.data → create_base_link filename = none) ∧
    ('_' ∈ filename.data → (create_base_link filename).isSome = true) := by
  constructor
  · intro h
    simp [create_base_link, splitOnChar_not_mem '_' filename.data h]
  · intro h
    have hlen : 2 ≤ ((splitOnChar '_' filename.data).map List.asString).length := by
      simpa using splitOnChar_mem_length '_' filename.data h
    simp only [create_base_link]
    generalize hp : (splitOnChar '_' filename.data).map List.asString = parts at hlen ⊢
    obtain ⟨p0, h0⟩ : ∃ p0, parts.get? 0 = some p0 := by
      cases hg : parts.get? 0 with
      | some p0 => exact ⟨p0, rfl⟩
      | none => rw [List.get?_eq_none] at hg; omega
    obtain ⟨p1, h1⟩ : ∃ p1, parts.get? 1 = some p1 := by
      cases hg : parts.get? 1 with
      | some p1 => exact ⟨p1, rfl⟩
      | none => rw [List.get?_eq_none] at hg; omega
    rw [h0, h1]
    simp only
    by_cases hc1 : p0 = "samplingplus" ∧ parts.length = 3
    · rw [if_pos hc1]
      obtain ⟨p2, h2⟩ : ∃ p2, parts.get? 2 = some p2 := by
        cases hg : parts.get? 2 with
        | some p2 => exact ⟨p2, rfl⟩
        | none => rw [List.get?_eq_none] at hg; omega
      rw [h2]
      rfl
    · rw [if_neg hc1]
      have hstep : ∃ e2, (if parts.length = 4 then
          (parts.get? 2).map (fun p2 =>
            ((if p0 = "samplingplus" then "/licenses/sampling+"
              else if pyStartswith p0 "zero" then "/publicdomain/" ++ p0
              else "/licenses/" ++ p0) ++ "/" ++ p1) ++ "/" ++ p2)
        else some ((if p0 = "samplingplus" then "/licenses/sampling+"
              else if pyStartswith p0 "zero" then "/publicdomain/" ++ p0
              else "/licenses/" ++ p0) ++ "/" ++ p1)) = some e2 := by
        by_cases h4 : parts.length = 4
        · rw [if_pos h4]
          obtain ⟨p2, h2⟩ : ∃ p2, parts.get? 2 = some p2 := by
            cases hg : parts.get? 2 with
            | some p2 => exact ⟨p2, rfl⟩
            | none => rw [List.get?_eq_none] at hg; omega
          rw [h2]
          exact ⟨_, rfl⟩
        · rw [if_neg h4]
          exact ⟨_, rfl⟩
      obtain ⟨e2, he2⟩ := hstep
      rw [he2]
      simp only
      by_cases h3 : 3 ≤ parts.length
      · rw [if_pos h3]
        obtain ⟨pl, hl⟩ : ∃ pl, parts.getLast? = some pl := by
          cases hg : parts.getLast? with
          | some pl => exact ⟨pl, rfl⟩
          | none => rw [List.getLast?_eq_none_iff] at hg; simp [hg] at hlen
        rw [hl]
        rfl
      · rw [if_neg h3]
        rfl

/-- Witness for C10: `by40` (no underscore) fails, `by_4.0` (one
underscore) succeeds. -/
theorem create_base_link_needs_underscore_witness :
    create_base_link "by40" = none ∧ (create_base_link "by_4.0").isSome = true := by
  exact ⟨(create_base_link_needs_underscore "by40").1 (by decide),
         (create_base_link_needs_underscore "by_4.0").2 (by decide)⟩

/-- The Status Checker classification exactly as the claim states it: an
empty scheme is replaced by `https`; `http`/`https` URLs yield the GET
response's status code or `Timeout Error` on timeout (one request, no
retry); `mailto` yields `ignore` without touching the network; any other
scheme yields `Invalid protocol detected` without touching the
network.  Note the `mailto` and catch-all branches never consult
`net`. -/
def scrapeClaimModel (net : Net) (href : String) : Status :=
  let a := urlsplit href ""
  let scheme := if a.scheme = "" then "https" else a.scheme
  if scheme = "http" ∨ scheme = "https" then
    match net (urlunsplit { a with scheme := scheme }) with
    | none => .timeoutError
    | some n => .code n
  else if scheme = "mailto" then .ignore
  else .invalidProtocol

/-- C4: `scrape` classifies every URL by scheme exactly as the claim
describes (`scrape = scrapeClaimModel`), and on every URL whose scheme
is not empty, `https`, or `http` the result is independent of the
network oracle: no network call is made. -/
theorem scrape_classifies_by_scheme (net net2 : Net) (href : String) :
    scrape net href = scrapeClaimModel net href ∧
    ((urlsplit href "").scheme ≠ "" ∧ (urlsplit href "").scheme ≠ "https" ∧
        (urlsplit href "").scheme ≠ "http" →
      scrape net href = scrape net2 href) := by
  constructor
  · by_cases h0 : (urlsplit href "").scheme = ""
    · simp [scrape, scrapeClaimModel, get_status, h0]
    · by_cases h1 : (urlsplit href "").scheme = "https"
      · have he : ({ urlsplit href "" with scheme := "https" } : SplitResult)
            = urlsplit href "" := by rw [← h1]
        simp [scrape, scrapeClaimModel, get_status, h0, h1, he]
      · by_cases h2 : (urlsplit href "").scheme = "http"
        · have he : ({ urlsplit href "" with scheme := "http" } : SplitResult)
              = urlsplit href "" := by rw [← h2]
          simp [scrape, scrapeClaimModel, get_status, h0, h1, h2, he]
        · by_cases h3 : (urlsplit href "").scheme = "mailto" <;>
            simp [scrape, scrapeClaimModel, get_status, h0, h1, h2, h3]
  · intro h
    obtain ⟨h0, h1, h2⟩ := h
    simp [scrape, h0, h1, h2]

/-- Witness for C4 at `ftp://example.com`: a non-web scheme gives the
same result under a responding oracle and a timing-out oracle, namely
`Invalid protocol detected`; and `mailto:a@b` is classified `ignore` by
the claim model. -/
theorem scrape_classifies_by_scheme_witness :
    scrape netOk "ftp://example.com" = scrape netTimeout "ftp://example.com" ∧
    scrape netOk "ftp://example.com" = .invalidProtocol ∧
    scrapeClaimModel netOk "mailto:a@b" = .ignore := by
  refine ⟨(scrape_classifies_by_scheme netOk netTimeout "ftp://example.com").2
    (by refine ⟨?_, ?_, ?_⟩ <;> decide), by decide, by decide⟩

/-- C5: on an href whose parsed scheme and netloc are empty and whose
path is nonempty, `create_absolute_link` returns the CPython standard
relative join `urljoin` of the (global) base URL and the href; on every
other href it returns the href unchanged. -/
theorem create_absolute_link_joins_relative (base href : String) :
    ((urlsplit href "").scheme = "" ∧ (urlsplit href "").netloc = "" ∧
        (urlsplit href "").path ≠ "" →
      create_absolute_link base (urlsplit href "") href = urljoin base href) ∧
    (¬ ((urlsplit href "").scheme = "" ∧ (urlsplit href "").netloc = "" ∧
        (urlsplit href "").path ≠ "") →
      create_absolute_link base (urlsplit href "") href = href) := by
  constructor <;> intro h <;> simp [create_absolute_link, h]

/-- Witness for C5: the relative href `d` is joined onto the base
(evaluating the join gives `https://a/b/d`), and the absolute href
`https://e/f` passes through unchanged. -/
theorem create_absolute_link_joins_relative_witness :
    create_absolute_link "https://a/b/c" (urlsplit "d" "") "d"
      = urljoin "https://a/b/c" "d" ∧
    urljoin "https://a/b/c" "d" = "https://a/b/d" ∧
    create_absolute_link "https://a/b/c" (urlsplit "https://e/f" "") "https://e/f"
      = "https://e/f" := by
  refine ⟨(create_absolute_link_joins_relative "https://a/b/c" "d").1
      (by refine ⟨?_, ?_, ?_⟩ <;> decide),
    by decide,
    (create_absolute_link_joins_relative "https://a/b/c" "https://e/f").2 (by decide)⟩

/-- The final error flag of a run is 1 exactly when it started at 1 or
some checked link's result was neither `200` nor `ignore`, and otherwise
equals the starting flag. -/
theorem run_links_err_characterization (net : Net) :
    ∀ (ls : List (Option String)) (st : CState) (err : Nat) (st2 : CState)
      (e : Nat) (tr : List Status),
      run_links net ls st err = some (st2, e, tr) →
      ((e = 1 ↔ err = 1 ∨ ∃ s ∈ tr, ¬ (s = .code 200 ∨ s = .ignore)) ∧
        (e = err ∨ e = 1)) := by
  intro ls
  induction ls with
  | nil =>
    intro st err st2 e tr h
    simp only [run_links, Option.some_inj, Prod.mk.injEq] at h
    obtain ⟨h1, h2, h3⟩ := h
    subst h2; subst h3
    simp
  | cons hd tl ih =>
    intro st err st2 e tr h
    cases hd with
    | none =>
      simpa using ih st err st2 e tr h
    | some href =>
      cases hdata : href.data with
      | nil =>
        simp only [run_links, hdata] at h
        exact Option.noConfusion h
      | cons c cs =>
        simp only [run_links, hdata] at h
        by_cases hc : c = '#'
        · rw [if_pos hc] at h
          exact ih st err st2 e tr h
        · rw [if_neg hc] at h
          cases hr : run_links net tl
              (check_existing net st href st.base_url).2
              (if (check_existing net st href st.base_url).1 = .code 200 ∨
                  (check_existing net st href st.base_url).1 = .ignore
                then err else 1) with
          | none => rw [hr] at h; simp at h
          | some r =>
            obtain ⟨st3, e3, tr3⟩ := r
            rw [hr] at h
            simp only [Option.some_inj, Prod.mk.injEq] at h
            obtain ⟨hst3, he3, htr3⟩ := h
            subst he3; subst htr3
            have hih := ih _ _ _ _ _ hr
            by_cases hgood : (check_existing net st href st.base_url).1 = .code 200 ∨
                (check_existing net st href st.base_url).1 = .ignore
            · rw [if_pos hgood] at hih
              constructor
              · constructor
                · intro he1
                  rcases hih.1.mp he1 with herr | ⟨s, hs, hbad⟩
                  · exact Or.inl herr
                  · exact Or.inr ⟨s, List.mem_cons_of_mem _ hs, hbad⟩
                · intro hx
                  rcases hx with herr | ⟨s, hs, hbad⟩
                  · exact hih.1.mpr (Or.inl herr)
                  · rcases List.mem_cons.mp hs with hseq | hs2
                    · exact absurd hgood (hseq ▸ hbad)
                    · exact hih.1.mpr (Or.inr ⟨s, hs2, hbad⟩)
              · exact hih.2
            · rw [if_neg hgood] at hih
              constructor
              · constructor
                · intro _
                  right
                  exact ⟨(check_existing net st href st.base_url).1,
                    List.mem_cons_self _ _, hgood⟩
                · intro _
                  exact hih.1.mpr (Or.inl rfl)
              · right
                exact hih.1.mpr (Or.inl rfl)

/-- C6: for a run of the per-link loop that completes (no crash), the
final `err_code` that `sys.exit` receives is 1 iff some checked link's
Check Result was neither `200` nor `ignore`, and 0 iff none was (it
starts at 0 and takes no other values); moreover once the flag is 1 any
further processing keeps it 1 (it is never reset). -/
theorem err_code_iff_broken_link (net : Net) (ls : List (Option String))
    (st st2 : CState) (e : Nat) (tr : List Status)
    (h : run_links net ls st 0 = some (st2, e, tr)) :
    (e = 1 ↔ ∃ s ∈ tr, ¬ (s = .code 200 ∨ s = .ignore)) ∧
    (e = 0 ↔ ¬ ∃ s ∈ tr, ¬ (s = .code 200 ∨ s = .ignore)) ∧
    (∀ (ls2 : List (Option String)) (st3 st4 : CState) (e4 : Nat)
        (tr4 : List Status),
      run_links net ls2 st3 1 = some (st4, e4, tr4) → e4 = 1) := by
  have hch := run_links_err_characterization net ls st 0 st2 e tr h
  refine ⟨?_, ?_, ?_⟩
  · rw [hch.1]
    simp
  · constructor
    · intro he0 hex
      have h1 : e = 1 := hch.1.mpr (Or.inr hex)
      omega
    · intro hno
      cases hch.2 with
      | inl h0 => exact h0
      | inr h1 => exact absurd ((hch.1.mp h1).resolve_left (by omega)) hno
  · intro ls2 st3 st4 e4 tr4 h4
    have hch4 := run_links_err_characterization net ls2 st3 1 st4 e4 tr4 h4
    exact hch4.1.mpr (Or.inl rfl)

/-- Witness for C6: a run over a timing-out link and a `mailto` link
completes with trace `[Timeout Error, ignore]` and flag 1, and the flag
is 1 exactly because the trace contains a result that is neither `200`
nor `ignore`. -/
theorem err_code_iff_broken_link_witness :
    (1 = 1 ↔ ∃ s ∈ [Status.timeoutError, Status.ignore],
      ¬ (s = .code 200 ∨ s = .ignore)) := by
  exact (err_code_iff_broken_link netTimeout [some "https://x", some "mailto:a@b"]
    st0
    ⟨"https://creativecommons.org/licenses/by/4.0/legalcode",
      [("https://x", .timeoutError), ("mailto:a@b", .ignore)], 2⟩
    1 [.timeoutError, .ignore] (by decide)).1

/-- C7: an anchor whose href begins with `#` is skipped by the per-link
loop before resolution and checking: the run over the stream with that
link is identical to the run without it, so the link never reaches
`check_existing` or `scrape` (state, cache and scrape-call count are
untouched by it). -/
theorem fragment_href_never_checked (net : Net) (href : String)
    (rest : List (Option String)) (st : CState) (err : Nat)
    (h : href.data.head? = some '#') :
    run_links net (some href :: rest) st err = run_links net rest st err := by
  cases hdata : href.data with
  | nil => rw [hdata] at h; simp at h
  | cons c cs =>
    rw [hdata] at h
    simp only [List.head?_cons, Option.some_inj] at h
    simp only [run_links, hdata]
    rw [if_pos h]

/-- Witness for C7 at the href `#top`: the skipped run equals the empty
run, which completes with the state, flag and trace untouched. -/
theorem fragment_href_never_checked_witness :
    run_links netOk [some "#top"] st0 0 = run_links netOk [] st0 0 ∧
    run_links netOk [some "#top"] st0 0 = some (st0, 0, []) := by
  refine ⟨fragment_href_never_checked netOk "#top" [] st0 0 (by decide), by decide⟩

end LinkChecker
